import Mathlib

/-!
Verification development for the ori-mcc download engine.

The definitions below are a shallow embedding of the TypeScript sources:
  - `src/utils/Downloader.ts` (class Downloader: downloadFile, downloadFileMultiple,
    checkURL, checkMirror, and the speed/ETA interval of downloadFileMultiple);
  - the error taxonomy module (OriCoreError subclasses and wrapError);
  - `src/Launch.ts` (the download-concurrency clamp on line 91).

Numeric values that are JS numbers are embedded as ℚ (the speed estimator) or
as Nat/Int counters where the code only ever holds integers.  The JS behaviour
of dividing by zero (Infinity / NaN) is made explicit through the `JsNum` type,
because ℚ silently yields 0 there.
-/

/-- Abstract behaviour of the network transfer for one descriptor: either the
stream completes having delivered `bytes` bytes, or the response has a non-ok
HTTP status (line 108 of Downloader.ts), or the body stream errors out. -/
inductive Transfer where
  | ok (bytes : Nat) : Transfer
  | httpError (status : Nat) (statusText : String) : Transfer
  | streamError (msg : String) : Transfer
deriving DecidableEq

/-- A download descriptor (interface DownloadOptions of Downloader.ts) together
with the abstract behaviour `transfer` its URL produces when fetched.  The
first four fields are the immutable descriptor; `transfer` is the environment
annotation used by the execution model. -/
structure DLFile where
  url : String
  path : String
  length : Nat
  folder : String
  kind : Option String := none
  transfer : Transfer
deriving DecidableEq

/-- The optional `context` argument of wrapError, of which the function reads
the `timeout`, `path` and `operation` properties when building the context of
the classified error. -/
structure WrapCtx where
  timeout : Option Nat := none
  path : Option String := none
  operation : Option String := none
deriving DecidableEq

/-- The `context` payload carried by a classified error: either the context
object handed to the constructor unchanged, or the object literal the
wrapError branch builds (`\x7btimeout\x7d` for TimeoutError, `\x7bpath,
operation\x7d` for FileSystemError). -/
inductive OriContext where
  | passthrough (c : Option WrapCtx) : OriContext
  | timeoutCtx (timeout : Nat) : OriContext
  | fileCtx (path : String) (operation : String) : OriContext
deriving DecidableEq

/-- A classified error: an instance of the OriCoreError hierarchy, carrying
the fields the base class stores (message, code, recoverable, context). -/
structure OriErr where
  message : String
  code : String
  recoverable : Bool
  context : OriContext
deriving DecidableEq

/-- A JS error value as observed by callers: either a plain `new Error(msg)`
or an instance of the OriCoreError hierarchy. -/
inductive ErrValue where
  | raw (message : String) : ErrValue
  | ori (e : OriErr) : ErrValue
deriving DecidableEq

/-- Whether a caller-observed error value is a classified (OriCoreError)
instance, as tested by the `instanceof OriCoreError` dispatch in the
alternative launcher (part_003). -/
def isClassifiedError : ErrValue → Bool
  | .raw _ => false
  | .ori _ => true

/-- Whether the transfer of this file fails (rejects its promise). -/
def dlFails (f : DLFile) : Bool :=
  match f.transfer with
  | .ok _ => false
  | .httpError _ _ => true
  | .streamError _ => true

/-- The error value the per-file `downloadFile` closure rejects with
(lines 105-139 of Downloader.ts): a plain Error built from the HTTP status
for a non-ok response, or the raw stream error. -/
def fileErrorD (f : DLFile) : ErrValue :=
  match f.transfer with
  | .ok _ => .raw ""
  | .httpError status statusText => .raw ("HTTP " ++ toString status ++ ": " ++ statusText)
  | .streamError msg => .raw msg

/-- Terminal outcome of one downloadFileMultiple call: the promise resolves,
or rejects with the error of the failing item. -/
inductive BatchResult where
  | success : BatchResult
  | failure (err : ErrValue) : BatchResult
deriving DecidableEq

/-- Observable effects of one downloadFileMultiple call: its terminal result,
the descriptors whose fetch was started (admitted), and the descriptors whose
stream ran to its end event, i.e. whose file was fully written to disk. -/
structure RunOutcome where
  result : BatchResult
  started : List DLFile
  written : List DLFile
deriving DecidableEq

/-- Denotation of the admission loop of downloadFileMultiple
(lines 142-148 of Downloader.ts) for a positive concurrency limit `l + 1`:
the loop takes the files in consecutive slices of size `l + 1`
(`files.slice(i, i + limit)`), starts every file of the slice at once and
awaits `Promise.all`.  If some file of the slice fails, `Promise.all` rejects:
the call rejects with that error, the files of the slice were all started
(its successes still stream to completion in the background), and no later
slice is ever admitted.  Otherwise the loop continues with the next slice. -/
def runPos (files : List DLFile) (l : Nat) : RunOutcome :=
  match files with
  | [] => ⟨.success, [], []⟩
  | f :: fs =>
    let batch := f :: fs.take l
    match batch.find? dlFails with
    | some bad =>
        ⟨.failure (fileErrorD bad), batch, batch.filter fun g => !dlFails g⟩
    | none =>
        let out := runPos (fs.drop l) l
        ⟨out.result, batch ++ out.started, batch ++ out.written⟩
termination_by files.length
decreasing_by simp [List.length_drop]; omega

/-- Fuel-indexed executor of the literal loop
`for (let i = 0; i < files.length; i += limit)` of downloadFileMultiple,
operating on the not-yet-visited suffix of the file list.  One unit of fuel
is one loop iteration; `none` means the loop was still running when the fuel
ran out.  With `limit = 0` the slice `files.slice(i, i + 0)` is empty and
`i += 0` never advances, so the loop spins forever on a non-empty list. -/
def runFuel : Nat → Nat → List DLFile → Option RunOutcome
  | _, _, [] => some ⟨.success, [], []⟩
  | 0, _, _ :: _ => none
  | fuel + 1, limit, f :: fs =>
    let batch := (f :: fs).take limit
    let rest := (f :: fs).drop limit
    match batch.find? dlFails with
    | some bad =>
        some ⟨.failure (fileErrorD bad), batch, batch.filter fun g => !dlFails g⟩
    | none =>
        match runFuel fuel limit rest with
        | none => none
        | some out => some ⟨out.result, batch ++ out.started, batch ++ out.written⟩

/-- Model of `downloadFileMultiple(files, totalSize, limit, timeout)`
(Downloader.ts line 72): the limit is first clamped from above
(`if (limit > files.length) limit = files.length`, line 73) and the admission
loop then runs.  A clamped limit of zero on a non-empty list never terminates
(denoted `none`); otherwise the denotation is `runPos`. -/
def downloadFileMultipleModel (files : List DLFile) (limit : Nat) : Option RunOutcome :=
  let lim := if files.length < limit then files.length else limit
  match lim with
  | 0 => if files.isEmpty then some ⟨.success, [], []⟩ else none
  | l + 1 => some (runPos files l)

/-- Call shape used by the alternative launcher (part_003, line 697):
downloadFileMultiple is invoked with a fifth argument, an AbortController
signal.  The function signature (Downloader.ts line 72) declares only four
parameters, so by JS semantics the extra argument is bound to nothing and the
body behaves identically whatever the signal state `signalAborted` is. -/
def downloadFileMultipleWithSignal (files : List DLFile) (limit : Nat)
    (signalAborted : Bool) : Option RunOutcome :=
  downloadFileMultipleModel files limit

/-- Concrete descriptor whose transfer succeeds (3 bytes). -/
def exOkA : DLFile :=
  { url := "https://m/a", path := "/tmp/a", length := 3, folder := "/tmp", transfer := .ok 3 }

/-- Second concrete descriptor whose transfer succeeds. -/
def exOkB : DLFile :=
  { url := "https://m/b", path := "/tmp/b", length := 5, folder := "/tmp", transfer := .ok 5 }

/-- Concrete descriptor whose URL answers HTTP 404. -/
def ex404 : DLFile :=
  { url := "https://m/missing", path := "/tmp/missing", length := 4, folder := "/tmp",
    transfer := .httpError 404 "Not Found" }

/-- A JS number as it appears on the estimated-time channel: a finite value,
one of the two infinities, or NaN.  Division by a non-zero value is finite;
JS division by zero yields Infinity, -Infinity or NaN by the sign of the
dividend. -/
inductive JsNum where
  | finite (q : ℚ) : JsNum
  | posInf : JsNum
  | negInf : JsNum
  | nan : JsNum
deriving DecidableEq

/-- JS division of two (finite) numbers, keeping the division-by-zero
artifacts explicit. -/
def jsDivQ (a b : ℚ) : JsNum :=
  if b ≠ 0 then .finite (a / b)
  else if 0 < a then .posInf
  else if a < 0 then .negInf
  else .nan

/-- One update of the speed sample list (lines 86-87 of Downloader.ts):
`if (speeds.length >= 5) speeds = speeds.slice(1); speeds.push(sample)`. -/
def windowStep (speeds : List ℚ) (sample : ℚ) : List ℚ :=
  (if 5 ≤ speeds.length then speeds.drop 1 else speeds) ++ [sample]

/-- Everything one tick of the speed interval produces. -/
structure TickResult where
  window : List ℚ
  speed : ℚ
  estimated : JsNum
deriving DecidableEq

/-- One tick of the 500 ms speed interval of downloadFileMultiple
(lines 83-96 of Downloader.ts).  `downloaded` is the byte counter now,
`before` its value at the previous tick, `duration` the elapsed seconds
(`(now - start) / 1000`), `totalSize` the expected total.  The tick computes
`loaded = (downloaded - before) * 8`, updates the window with the sample
`(loaded / duration) / 8`, emits the summed window divided by its length as
the speed, and emits `(totalSize - downloaded) / speed` as the estimate. -/
def speedTick (speeds : List ℚ) (downloaded before duration totalSize : ℚ) : TickResult :=
  let loaded := (downloaded - before) * 8
  let w := windowStep speeds (loaded / duration / 8)
  let speed := (w.foldl (· + ·) 0) / (w.length : ℚ)
  { window := w, speed := speed, estimated := jsDivQ (totalSize - downloaded) speed }

/-- Answer of one HEAD probe: HTTP status and the advertised content-length
header, if any.  The probe oracle maps a URL to `none` when the fetch throws
(timeout, unreachable host), else to the response. -/
structure ProbeAnswer where
  status : Nat
  contentLength : Option Nat
deriving DecidableEq

/-- Model of `Downloader.checkURL(url, timeout)` (lines 154-168): a thrown
fetch is caught and becomes `false` (here `none`); a response with status
exactly 200 yields its size (0 when no content-length header) and status;
any other status also yields `false`. -/
def checkURL (probe : String → Option ProbeAnswer) (url : String) : Option (Nat × Nat) :=
  match probe url with
  | none => none
  | some r => if r.status = 200 then some (r.contentLength.getD 0, r.status) else none

/-- Model of `Downloader.checkMirror(baseURL, mirrors)` (lines 170-184):
mirrors are probed one after the other in list order at `mirror + "/" +
baseURL`; the first probe that returns a result with status 200 is returned
together with the resolved URL; when every mirror fails, `false` (none). -/
def checkMirror (probe : String → Option ProbeAnswer) (baseURL : String) :
    List String → Option (String × Nat × Nat)
  | [] => none
  | m :: ms =>
    let url := m ++ "/" ++ baseURL
    match checkURL probe url with
    | some (size, status) =>
        if status = 200 then some (url, size, status)
        else checkMirror probe baseURL ms
    | none => checkMirror probe baseURL ms

/-- Same loop as `checkMirror` but also returning the list of URLs actually
handed to checkURL (in order), to reason about which mirrors get contacted. -/
def checkMirrorTrace (probe : String → Option ProbeAnswer) (baseURL : String) :
    List String → Option (String × Nat × Nat) × List String
  | [] => (none, [])
  | m :: ms =>
    let url := m ++ "/" ++ baseURL
    match checkURL probe url with
    | some (size, status) =>
        if status = 200 then (some (url, size, status), [url])
        else
          let r := checkMirrorTrace probe baseURL ms
          (r.1, url :: r.2)
    | none =>
        let r := checkMirrorTrace probe baseURL ms
        (r.1, url :: r.2)

/-- JS `String.prototype.includes`: substring test. -/
def jsIncludes (s sub : String) : Bool :=
  decide (sub.toList <:+: s.toList)

/-- The argument of wrapError: a JS Error, of which only `message` is read. -/
structure JsErrorArg where
  message : String
deriving DecidableEq

/-- JS `ctx?.timeout || 10000` of the TimeoutError branch: a missing context,
a missing property and the falsy value 0 all fall back to 10000. -/
def ctxTimeout (ctx : Option WrapCtx) : Nat :=
  match ctx with
  | none => 10000
  | some c =>
    match c.timeout with
    | none => 10000
    | some t => if t = 0 then 10000 else t

/-- JS `ctx?.path || ''`. -/
def ctxPath (ctx : Option WrapCtx) : String :=
  match ctx with
  | none => ""
  | some c => c.path.getD ""

/-- JS `ctx?.operation || 'access'`: a missing property and the falsy empty
string both fall back to "access". -/
def ctxOperation (ctx : Option WrapCtx) : String :=
  match ctx with
  | none => "access"
  | some c =>
    match c.operation with
    | none => "access"
    | some op => if op = "" then "access" else op

/-- Model of `wrapError(error, context)` (error taxonomy module, lines
279-314): the error message is matched against known failure substrings in
source order and the matching OriCoreError subclass is constructed; an
unmatched message falls through to a generic error with code UNKNOWN_ERROR.
The recoverable flag comes from each subclass constructor: NetworkError
subclasses (ConnectionError, TimeoutError) pass true, FileSystemError is
constructed here with false, the generic fallback passes false. -/
def wrapError (error : JsErrorArg) (context : Option WrapCtx) : OriErr :=
  let message := error.message
  if jsIncludes message "ECONNRESET" || jsIncludes message "ECONNREFUSED" then
    { message := message, code := "CONNECTION_REFUSED", recoverable := true,
      context := .passthrough context }
  else if jsIncludes message "ETIMEDOUT" then
    { message := message, code := "TIMEOUT_ERROR", recoverable := true,
      context := .timeoutCtx (ctxTimeout context) }
  else if jsIncludes message "ENOTFOUND" then
    { message := message, code := "DNS_LOOKUP_FAILED", recoverable := true,
      context := .passthrough context }
  else if jsIncludes message "ENOENT" then
    { message := message, code := "FILE_NOT_FOUND", recoverable := false,
      context := .fileCtx (ctxPath context) "read" }
  else if jsIncludes message "EACCES" || jsIncludes message "EPERM" then
    { message := message, code := "PERMISSION_DENIED", recoverable := false,
      context := .fileCtx (ctxPath context) (ctxOperation context) }
  else if jsIncludes message "ENOSPC" then
    { message := message, code := "DISK_FULL", recoverable := false,
      context := .fileCtx (ctxPath context) "write" }
  else
    { message := message, code := "UNKNOWN_ERROR", recoverable := false,
      context := .passthrough context }

/-- Model of the concurrency clamp of Launch.Launch (Launch.ts line 91):
`this.options.downloadFileMultiple = Math.max(1, Math.min(30,
this.options.downloadFileMultiple || 5))`.  `none` is an unset option
(undefined); by JS semantics `x || 5` replaces both undefined and the falsy
number 0 with the default 5. -/
def clampDownloadLimit (x : Option Int) : Int :=
  let v : Int :=
    match x with
    | none => 5
    | some n => if n = 0 then 5 else n
  max 1 (min 30 v)

/-- Largest element of a duration list (0 for the empty list): the instant
`Promise.all` of a slice settles, relative to the slice start. -/
def listMax (l : List Nat) : Nat := l.foldr max 0

/-- Timing semantics of the admission loop (Downloader.ts lines 142-148) for
limit `l + 1`, given per-file transfer durations `ds` and the instant `t` the
loop reaches the current slice: every file of the slice starts at `t`, and
the next slice starts when the whole `Promise.all` settles, i.e. after the
slowest transfer of the slice. -/
def batchStarts (ds : List Nat) (l : Nat) (t : Nat) : List Nat :=
  match ds with
  | [] => []
  | d :: rest0 =>
    let batch := d :: rest0.take l
    batch.map (fun _ => t) ++ batchStarts (rest0.drop l) l (t + listMax batch)
termination_by ds.length
decreasing_by simp [List.length_drop]; omega

/-- Admit one transfer of duration `d` into the earliest-free slot: returns
the admission instant and the updated slot free-times (ties broken towards
the earlier slot). -/
def admitIntoMinSlot (slots : List Nat) (d : Nat) : Nat × List Nat :=
  match slots with
  | [] => (0, [])
  | [t] => (t, [t + d])
  | t :: rest =>
    let p := admitIntoMinSlot rest d
    if t ≤ p.1 then (t, (t + d) :: rest) else (p.1, t :: p.2)

/-- Modelled from the spec: admission policy of section 4.5 ("maintain
exactly concurrencyLimit active slots; whenever a slot's transfer reaches a
terminal state, immediately admit the next queued descriptor into that slot",
single shared FIFO queue).  Start times of the transfers with durations `ds`
when each next descriptor is admitted the moment the earliest slot frees.
This definition follows the spec wording, for comparison against the
code-derived `batchStarts`. -/
def slotFifoStarts (ds : List Nat) (slots : List Nat) : List Nat :=
  match ds with
  | [] => []
  | d :: rest =>
    let p := admitIntoMinSlot slots d
    p.1 :: slotFifoStarts rest p.2

/-! Shared lemmas about the admission-loop semantics. -/

theorem runPos_nil (l : Nat) : runPos [] l = ⟨.success, [], []⟩ := by
  rw [runPos]

theorem runPos_cons (f : DLFile) (fs : List DLFile) (l : Nat) :
    runPos (f :: fs) l =
      match (f :: fs.take l).find? dlFails with
      | some bad =>
          ⟨.failure (fileErrorD bad), f :: fs.take l,
            (f :: fs.take l).filter fun g => !dlFails g⟩
      | none =>
          ⟨(runPos (fs.drop l) l).result,
            (f :: fs.take l) ++ (runPos (fs.drop l) l).started,
            (f :: fs.take l) ++ (runPos (fs.drop l) l).written⟩ := by
  rw [runPos]

theorem runPos_cons_fail (f : DLFile) (fs : List DLFile) (l : Nat) (bad : DLFile)
    (h : (f :: fs.take l).find? dlFails = some bad) :
    runPos (f :: fs) l =
      ⟨.failure (fileErrorD bad), f :: fs.take l,
        (f :: fs.take l).filter fun g => !dlFails g⟩ := by
  rw [runPos_cons, h]

theorem runPos_cons_ok (f : DLFile) (fs : List DLFile) (l : Nat)
    (h : (f :: fs.take l).find? dlFails = none) :
    runPos (f :: fs) l =
      ⟨(runPos (fs.drop l) l).result,
        (f :: fs.take l) ++ (runPos (fs.drop l) l).started,
        (f :: fs.take l) ++ (runPos (fs.drop l) l).written⟩ := by
  rw [runPos_cons, h]

theorem runFuel_limit_zero (fuel : Nat) (f : DLFile) (fs : List DLFile) :
    runFuel fuel 0 (f :: fs) = none := by
  induction fuel with
  | zero => rfl
  | succ fuel ih => simp [runFuel, ih]

theorem runFuel_eq_runPos (l : Nat) (fuel : Nat) :
    ∀ files : List DLFile, files.length ≤ fuel →
      runFuel fuel (l + 1) files = some (runPos files l) := by
  induction fuel with
  | zero =>
    intro files h
    have : files = [] := List.length_eq_zero.mp (Nat.le_zero.mp h)
    subst this
    simp [runFuel, runPos_nil]
  | succ fuel ih =>
    intro files h
    match files with
    | [] => simp [runFuel, runPos_nil]
    | f :: fs =>
      rw [runFuel]
      simp only [List.take_succ_cons, List.drop_succ_cons]
      cases hfind : (f :: fs.take l).find? dlFails with
      | some bad => simp [runPos_cons_fail f fs l bad hfind]
      | none =>
        have hlen : (fs.drop l).length ≤ fuel := by
          simp only [List.length_drop]
          simp only [List.length_cons] at h
          omega
        simp [ih (fs.drop l) hlen, runPos_cons_ok f fs l hfind]

theorem runPos_allOk (l : Nat) :
    ∀ (n : Nat) (files : List DLFile), files.length ≤ n →
      (∀ f ∈ files, dlFails f = false) →
      runPos files l = ⟨.success, files, files⟩ := by
  intro n
  induction n with
  | zero =>
    intro files h _
    have : files = [] := List.length_eq_zero.mp (Nat.le_zero.mp h)
    subst this
    exact runPos_nil l
  | succ n ih =>
    intro files hlen hok
    match files with
    | [] => exact runPos_nil l
    | f :: fs =>
      have hfind : (f :: fs.take l).find? dlFails = none := by
        refine List.find?_eq_none.mpr ?_
        intro x hx
        have hx' : x ∈ f :: fs := by
          rcases hx with _ | hx
          · exact List.mem_cons_self f fs
          · exact List.mem_cons_of_mem f (List.mem_of_mem_take (by assumption))
        simp [hok x hx']
      rw [runPos_cons_ok f fs l hfind]
      have hrec : runPos (fs.drop l) l = ⟨.success, fs.drop l, fs.drop l⟩ := by
        refine ih (fs.drop l) ?_ ?_
        · simp only [List.length_drop]
          simp only [List.length_cons] at hlen
          omega
        · intro g hg
          exact hok g (List.mem_cons_of_mem f (List.mem_of_mem_drop hg))
      rw [hrec]
      simp [List.take_append_drop]

theorem runPos_fail (l : Nat) :
    ∀ (n : Nat) (A B : List DLFile), A.length ≤ n →
      (l + 1) ∣ A.length →
      (∀ f ∈ A, dlFails f = false) →
      ∀ bad : DLFile, (B.take (l + 1)).find? dlFails = some bad →
      runPos (A ++ B) l =
        ⟨.failure (fileErrorD bad), A ++ B.take (l + 1),
          A ++ ((B.take (l + 1)).filter fun g => !dlFails g)⟩ := by
  intro n
  induction n with
  | zero =>
    intro A B hn _ _ bad hfind
    have : A = [] := List.length_eq_zero.mp (Nat.le_zero.mp hn)
    subst this
    match B with
    | [] => simp at hfind
    | b :: bs =>
      rw [List.take_succ_cons] at hfind ⊢
      simpa using runPos_cons_fail b bs l bad hfind
  | succ n ih =>
    intro A B hn hdvd hok bad hfind
    match A with
    | [] =>
      exact ih [] B (Nat.zero_le n) (by simp) (by simp) bad hfind
    | a :: as =>
      have hlenA : l + 1 ≤ (a :: as).length :=
        Nat.le_of_dvd (by simp) hdvd
      have hlas : l ≤ as.length := by
        simp only [List.length_cons] at hlenA
        omega
      have htake : (as ++ B).take l = as.take l :=
        List.take_append_of_le_length hlas
      have hdrop : (as ++ B).drop l = as.drop l ++ B :=
        List.drop_append_of_le_length hlas
      have hfindA : (a :: (as ++ B).take l).find? dlFails = none := by
        rw [htake]
        refine List.find?_eq_none.mpr ?_
        intro x hx
        have hx' : x ∈ a :: as := by
          rcases hx with _ | hx
          · exact List.mem_cons_self a as
          · exact List.mem_cons_of_mem a (List.mem_of_mem_take (by assumption))
        simp [hok x hx']
      have hrec : runPos (as.drop l ++ B) l =
          ⟨.failure (fileErrorD bad), as.drop l ++ B.take (l + 1),
            as.drop l ++ ((B.take (l + 1)).filter fun g => !dlFails g)⟩ := by
        refine ih (as.drop l) B ?_ ?_ ?_ bad hfind
        · simp only [List.length_drop]
          simp only [List.length_cons] at hn
          omega
        · have h1 : (l + 1) ∣ (a :: as).length - (l + 1) :=
            Nat.dvd_sub' hdvd (dvd_refl (l + 1))
          simpa [List.length_drop, List.length_cons, Nat.succ_sub_succ] using h1
        · intro g hg
          exact hok g (List.mem_cons_of_mem a (List.mem_of_mem_drop hg))
      have := runPos_cons_ok a (as ++ B) l hfindA
      rw [List.cons_append, this, hdrop, hrec, htake]
      have hTD : as.take l ++ (as.drop l ++ B.take (l + 1)) = as ++ B.take (l + 1) := by
        rw [← List.append_assoc, List.take_append_drop]
      have hTD2 : as.take l ++ (as.drop l ++ ((B.take (l + 1)).filter fun g => !dlFails g)) =
          as ++ ((B.take (l + 1)).filter fun g => !dlFails g) := by
        rw [← List.append_assoc, List.take_append_drop]
      simp [hTD, hTD2]

/-! Shared lemmas about the speed sample window. -/

theorem foldl_windowStep :
    ∀ (samples w : List ℚ), w.length ≤ 5 →
      List.foldl windowStep w samples = (w ++ samples).drop ((w ++ samples).length - 5) := by
  intro samples
  induction samples with
  | nil =>
    intro w h
    simp [Nat.sub_eq_zero_of_le h]
  | cons s ss ih =>
    intro w h
    rw [List.foldl_cons]
    by_cases h5 : 5 ≤ w.length
    · have hw5 : w.length = 5 := le_antisymm h h5
      have hstep : windowStep w s = w.drop 1 ++ [s] := by
        simp [windowStep, h5]
      have hlen : (windowStep w s).length ≤ 5 := by
        simp [hstep, hw5]
      rw [ih (windowStep w s) hlen, hstep]
      have e1 : (w.drop 1 ++ [s]) ++ ss = w.drop 1 ++ (s :: ss) := by
        simp
      have e2 : (w ++ s :: ss).drop 1 = w.drop 1 ++ (s :: ss) :=
        List.drop_append_of_le_length (by omega)
      have hl1 : ((w.drop 1 ++ [s]) ++ ss).length - 5 = ss.length := by
        simp [hw5]
        omega
      have hl2 : (w ++ s :: ss).length - 5 = 1 + ss.length := by
        simp [hw5]
        omega
      rw [hl1, hl2, e1, ← List.drop_drop, e2]
    · have hstep : windowStep w s = w ++ [s] := by
        simp [windowStep, h5]
      have hlen : (windowStep w s).length ≤ 5 := by
        simp [hstep]
        omega
      rw [ih (windowStep w s) hlen, hstep]
      simp

/-! Shared lemmas about the timing model. -/

theorem batchStarts_nil (l t : Nat) : batchStarts [] l t = [] := by
  rw [batchStarts]

theorem batchStarts_cons (d : Nat) (rest0 : List Nat) (l t : Nat) :
    batchStarts (d :: rest0) l t =
      (d :: rest0.take l).map (fun _ => t) ++
        batchStarts (rest0.drop l) l (t + listMax (d :: rest0.take l)) := by
  rw [batchStarts]

theorem le_listMax (x : Nat) : ∀ xs : List Nat, x ∈ xs → x ≤ listMax xs := by
  intro xs
  induction xs with
  | nil => intro h; cases h
  | cons a t ih =>
    intro h
    rcases List.mem_cons.mp h with rfl | h
    · exact le_max_left _ _
    · exact le_trans (ih h) (le_max_right _ _)

theorem batchStarts_le (l : Nat) :
    ∀ (n : Nat) (ds : List Nat), ds.length ≤ n →
      ∀ t s, s ∈ batchStarts ds l t → t ≤ s := by
  intro n
  induction n with
  | zero =>
    intro ds h t s hs
    have : ds = [] := List.length_eq_zero.mp (Nat.le_zero.mp h)
    subst this
    rw [batchStarts_nil] at hs
    cases hs
  | succ n ih =>
    intro ds h t s hs
    match ds with
    | [] =>
      rw [batchStarts_nil] at hs
      cases hs
    | d :: rest0 =>
      rw [batchStarts_cons] at hs
      rcases List.mem_append.mp hs with hs | hs
      · rcases List.mem_map.mp hs with ⟨_, _, rfl⟩
        exact le_refl t
      · have hlen : (rest0.drop l).length ≤ n := by
          simp only [List.length_drop]
          simp only [List.length_cons] at h
          omega
        exact le_trans (Nat.le_add_right _ _) (ih (rest0.drop l) hlen _ s hs)

/-! Shared lemmas about the mirror probe. -/

theorem checkURL_eq_some (probe : String → Option ProbeAnswer) (u : String)
    (size status : Nat)
    (h : checkURL probe u = some (size, status)) :
    status = 200 ∧
      ∃ r : ProbeAnswer, probe u = some r ∧ r.status = 200 ∧ size = r.contentLength.getD 0 := by
  unfold checkURL at h
  cases hp : probe u with
  | none => simp [hp] at h
  | some r =>
    rw [hp] at h
    dsimp only at h
    by_cases h200 : r.status = 200
    · rw [if_pos h200] at h
      obtain ⟨h1, h2⟩ := Prod.mk.inj (Option.some.inj h)
      exact ⟨h2 ▸ h200, r, rfl, h200, h1.symm⟩
    · rw [if_neg h200] at h
      cases h

theorem checkMirror_none_iff (probe : String → Option ProbeAnswer) (base : String) :
    ∀ mirrors : List String,
      checkMirror probe base mirrors = none ↔
        ∀ m ∈ mirrors, checkURL probe (m ++ "/" ++ base) = none := by
  intro mirrors
  induction mirrors with
  | nil => simp [checkMirror]
  | cons m ms ih =>
    rw [checkMirror]
    cases hcu : checkURL probe (m ++ "/" ++ base) with
    | none => simp [hcu, ih]
    | some p =>
      obtain ⟨size, status⟩ := p
      have h200 := (checkURL_eq_some probe _ size status hcu).1
      subst h200
      simp [hcu]

theorem checkMirrorTrace_first_success (probe : String → Option ProbeAnswer) (base : String) :
    ∀ (pre : List String) (m : String) (post : List String),
      (∀ x ∈ pre, checkURL probe (x ++ "/" ++ base) = none) →
      ∀ r : ProbeAnswer, probe (m ++ "/" ++ base) = some r → r.status = 200 →
      checkMirrorTrace probe base (pre ++ m :: post) =
        (some (m ++ "/" ++ base, r.contentLength.getD 0, 200),
          (pre ++ [m]).map fun x => x ++ "/" ++ base) := by
  intro pre
  induction pre with
  | nil =>
    intro m post _ r hr h200
    have hcu : checkURL probe (m ++ "/" ++ base) = some (r.contentLength.getD 0, 200) := by
      simp [checkURL, hr, h200]
    simp [checkMirrorTrace, hcu]
  | cons x xs ih =>
    intro m post hpre r hr h200
    have hx : checkURL probe (x ++ "/" ++ base) = none :=
      hpre x (List.mem_cons_self x xs)
    have := ih m post (fun y hy => hpre y (List.mem_cons_of_mem x hy)) r hr h200
    rw [List.cons_append, checkMirrorTrace]
    simp [hx, this]

/-! Claim theorems. -/

/-- C6: the speed sample window is a bounded FIFO of capacity 5: starting from
the empty window, after any sequence of estimator ticks the window holds at
most 5 samples and equals exactly the last (up to) 5 pushed samples in push
order; pushing into a full window evicts the oldest sample (the head),
preserving the order of the remaining samples. -/
theorem speedWindow_bounded_fifo :
    (∀ samples : List ℚ, (List.foldl windowStep [] samples).length ≤ 5) ∧
    (∀ samples : List ℚ,
      List.foldl windowStep [] samples = samples.drop (samples.length - 5)) ∧
    (∀ (w : List ℚ) (s : ℚ), w.length = 5 → windowStep w s = w.drop 1 ++ [s]) := by
  refine ⟨?_, ?_, ?_⟩
  · intro samples
    have h := foldl_windowStep samples [] (by simp)
    rw [h]
    simp only [List.nil_append, List.length_drop]
    omega
  · intro samples
    simpa using foldl_windowStep samples [] (by simp)
  · intro w s h
    simp [windowStep, h]

/-- Witness for C6 at a concrete run of six ticks: the window keeps the last
five samples and a push into the full window evicts the head. -/
theorem speedWindow_bounded_fifo_witness :
    (List.foldl windowStep [] [(1 : ℚ), 2, 3, 4, 5, 6]).length ≤ 5 ∧
    List.foldl windowStep [] [(1 : ℚ), 2, 3, 4, 5, 6] = [2, 3, 4, 5, 6] ∧
    windowStep [(1 : ℚ), 2, 3, 4, 5] 7 = [2, 3, 4, 5, 7] := by
  refine ⟨speedWindow_bounded_fifo.1 _, ?_, ?_⟩
  · have h := speedWindow_bounded_fifo.2.1 [(1 : ℚ), 2, 3, 4, 5, 6]
    simpa using h
  · have h := speedWindow_bounded_fifo.2.2 [(1 : ℚ), 2, 3, 4, 5] 7 (by simp)
    simpa using h

/-- C7: on each estimator tick the freshly pushed sample (the last element of
the updated window) equals bytesThisInterval / intervalSeconds — the code's
multiplication by 8 and later division by 8 cancel exactly — and the value
emitted on the speed channel is the arithmetic mean (sum divided by length)
of the samples in the window. -/
theorem speedTick_sample_and_mean (speeds : List ℚ)
    (downloaded before duration totalSize : ℚ) :
    (speedTick speeds downloaded before duration totalSize).window.getLast? =
      some ((downloaded - before) / duration) ∧
    (speedTick speeds downloaded before duration totalSize).speed =
      (speedTick speeds downloaded before duration totalSize).window.sum /
        ((speedTick speeds downloaded before duration totalSize).window.length : ℚ) := by
  constructor
  · have hw : (speedTick speeds downloaded before duration totalSize).window =
        windowStep speeds ((downloaded - before) * 8 / duration / 8) := rfl
    rw [hw, windowStep, List.getLast?_concat]
    congr 1
    rw [div_div, mul_div_mul_right _ _ (by norm_num : (8 : ℚ) ≠ 0)]
  · simp [speedTick, List.sum_eq_foldl]

/-- C8 (amended): the value emitted on the estimated channel is exactly the
JS quotient `(totalSize - downloaded) / speed`: a finite value equal to the
remaining bytes over the smoothed speed when the speed is non-zero, and the
raw division artifact — Infinity, -Infinity or NaN by the sign of the
remaining bytes — when the smoothed speed is zero.  No sentinel replaces the
artifact. -/
theorem estimated_artifact_characterization (speeds : List ℚ)
    (downloaded before duration totalSize : ℚ) :
    ((speedTick speeds downloaded before duration totalSize).speed ≠ 0 →
      (speedTick speeds downloaded before duration totalSize).estimated =
        .finite ((totalSize - downloaded) /
          (speedTick speeds downloaded before duration totalSize).speed)) ∧
    ((speedTick speeds downloaded before duration totalSize).speed = 0 →
      0 < totalSize - downloaded →
      (speedTick speeds downloaded before duration totalSize).estimated = .posInf) ∧
    ((speedTick speeds downloaded before duration totalSize).speed = 0 →
      totalSize - downloaded < 0 →
      (speedTick speeds downloaded before duration totalSize).estimated = .negInf) ∧
    ((speedTick speeds downloaded before duration totalSize).speed = 0 →
      totalSize - downloaded = 0 →
      (speedTick speeds downloaded before duration totalSize).estimated = .nan) := by
  have hE : (speedTick speeds downloaded before duration totalSize).estimated =
      jsDivQ (totalSize - downloaded)
        (speedTick speeds downloaded before duration totalSize).speed := rfl
  refine ⟨?_, ?_, ?_, ?_⟩
  · intro h
    rw [hE]
    simp [jsDivQ, h]
  · intro h hpos
    rw [hE, h]
    simp [jsDivQ, hpos]
  · intro h hneg
    rw [hE, h]
    simp only [jsDivQ, ne_eq, not_true_eq_false, if_false]
    rw [if_neg (by linarith), if_pos hneg]
  · intro h hzero
    rw [hE, h, hzero]
    simp [jsDivQ]

/-- Witness for C8 at concrete ticks: with no bytes moved yet the smoothed
speed is 0 and Infinity is emitted; with 50 bytes in one second the speed is
50 and the finite quotient is emitted. -/
theorem estimated_artifact_witness :
    (speedTick [] 0 0 1 100).estimated = JsNum.posInf ∧
    (speedTick [] 50 0 1 100).estimated = JsNum.finite 1 := by
  have h0 : (speedTick [] 0 0 1 100).speed = 0 := by
    norm_num [speedTick, windowStep]
  have h50 : (speedTick [] 50 0 1 100).speed = 50 := by
    norm_num [speedTick, windowStep]
  constructor
  · exact (estimated_artifact_characterization [] 0 0 1 100).2.1 h0 (by norm_num)
  · have h := (estimated_artifact_characterization [] 50 0 1 100).1 (by rw [h50]; norm_num)
    rw [h, h50]
    norm_num

/-- C8 counterexample to the sentinel claim: on the very first tick of a
batch with no bytes yet transferred (100 expected bytes, 1 s elapsed), the
smoothed speed is 0 and the value emitted on the estimated channel is the
raw Infinity produced by dividing by zero — not a sentinel. -/
theorem estimated_sentinel_counterexample :
    (speedTick [] 0 0 1 100).estimated = JsNum.posInf := by
  norm_num [speedTick, windowStep, jsDivQ]

/-- C4 (amended): wrapError is pure and total: for every input error and
context it returns a classified error that preserves the original message,
whose code is one of the seven codes the function can produce, and which is
recoverable exactly when the code is one of the three network codes. -/
theorem wrapError_pure_total (e : JsErrorArg) (ctx : Option WrapCtx) :
    (wrapError e ctx).message = e.message ∧
    (wrapError e ctx).code ∈
      ["CONNECTION_REFUSED", "TIMEOUT_ERROR", "DNS_LOOKUP_FAILED",
        "FILE_NOT_FOUND", "PERMISSION_DENIED", "DISK_FULL", "UNKNOWN_ERROR"] ∧
    ((wrapError e ctx).recoverable = true ↔
      (wrapError e ctx).code ∈
        ["CONNECTION_REFUSED", "TIMEOUT_ERROR", "DNS_LOOKUP_FAILED"]) := by
  unfold wrapError
  dsimp only
  split_ifs <;> simp

/-- C4 counterexample to the boundary claim: the error with which
downloadFileMultiple rejects for an HTTP 404 descriptor is the plain
`new Error("HTTP 404: Not Found")` thrown on line 109 of Downloader.ts — it
is not an OriCoreError instance, so a raw unclassified failure does cross
the engine boundary. -/
theorem engine_raw_error_counterexample :
    downloadFileMultipleModel [ex404] 1 =
      some ⟨.failure (.raw "HTTP 404: Not Found"), [ex404], []⟩ ∧
    isClassifiedError (.raw "HTTP 404: Not Found") = false := by
  constructor
  · simp [downloadFileMultipleModel, runPos, ex404, dlFails, fileErrorD]
    rfl
  · rfl

theorem checkMirror_eq_trace_fst (probe : String → Option ProbeAnswer) (base : String) :
    ∀ mirrors : List String,
      checkMirror probe base mirrors = (checkMirrorTrace probe base mirrors).1 := by
  intro mirrors
  induction mirrors with
  | nil => rfl
  | cons m ms ih =>
    rw [checkMirror, checkMirrorTrace]
    cases hcu : checkURL probe (m ++ "/" ++ base) with
    | none => simpa using ih
    | some p =>
      obtain ⟨size, status⟩ := p
      by_cases h200 : status = 200
      · simp [h200]
      · simpa [h200] using ih

/-- C9: checkMirror probes the candidate mirrors strictly in list order at
`mirror + "/" + path`; it returns none exactly when every mirror probe fails
(a failed or thrown probe is absorbed by checkURL and the scan advances);
and when the mirrors split as `pre ++ m :: post` with every probe of `pre`
failing and the probe of `m` answering status 200, the result is the
resolved URL of `m` with the advertised content length (0 when the header is
absent) and status 200, and the URLs contacted are exactly those of `pre`
followed by `m` — no mirror after the first success is contacted. -/
theorem checkMirror_first_success_in_order (probe : String → Option ProbeAnswer)
    (base : String) :
    (∀ mirrors : List String,
      checkMirror probe base mirrors = none ↔
        ∀ m ∈ mirrors, checkURL probe (m ++ "/" ++ base) = none) ∧
    (∀ (pre : List String) (m : String) (post : List String),
      (∀ x ∈ pre, checkURL probe (x ++ "/" ++ base) = none) →
      ∀ r : ProbeAnswer, probe (m ++ "/" ++ base) = some r → r.status = 200 →
        checkMirror probe base (pre ++ m :: post) =
          some (m ++ "/" ++ base, r.contentLength.getD 0, 200) ∧
        checkMirrorTrace probe base (pre ++ m :: post) =
          (some (m ++ "/" ++ base, r.contentLength.getD 0, 200),
            (pre ++ [m]).map fun x => x ++ "/" ++ base)) := by
  constructor
  · exact checkMirror_none_iff probe base
  · intro pre m post hpre r hr h200
    have htr := checkMirrorTrace_first_success probe base pre m post hpre r hr h200
    refine ⟨?_, htr⟩
    rw [checkMirror_eq_trace_fst probe base, htr]

/-- Witness for C9, matching the spec example: mirror A times out, mirror B
answers 200 with content-length 1024, mirror C is never contacted. -/
theorem checkMirror_first_success_witness :
    checkMirror (fun u => if u = "B/f" then some ⟨200, some 1024⟩ else none) "f"
        (["A"] ++ "B" :: ["C"]) =
      some ("B" ++ "/" ++ "f", 1024, 200) ∧
    checkMirrorTrace (fun u => if u = "B/f" then some ⟨200, some 1024⟩ else none) "f"
        (["A"] ++ "B" :: ["C"]) =
      (some ("B" ++ "/" ++ "f", 1024, 200),
        (["A"] ++ ["B"]).map fun x => x ++ "/" ++ "f") := by
  have h := (checkMirror_first_success_in_order
      (fun u => if u = "B/f" then some ⟨200, some 1024⟩ else none) "f").2
      ["A"] "B" ["C"] (by decide) ⟨200, some 1024⟩ (by decide) (by decide)
  exact h

/-- C10 (amended): the concurrency limit Launch passes to the downloader is
always in [1, 30]; an unset option and the falsy caller value 0 both fall
back to the default 5; a negative caller value is raised to 1; a value above
30 is lowered to 30; a value already in [1, 30] passes through unchanged. -/
theorem launch_clamp_range (x : Option Int) :
    (1 ≤ clampDownloadLimit x ∧ clampDownloadLimit x ≤ 30) ∧
    clampDownloadLimit none = 5 ∧
    clampDownloadLimit (some 0) = 5 ∧
    (∀ n : Int, n < 0 → clampDownloadLimit (some n) = 1) ∧
    (∀ n : Int, 30 < n → clampDownloadLimit (some n) = 30) ∧
    (∀ n : Int, 1 ≤ n → n ≤ 30 → clampDownloadLimit (some n) = n) := by
  refine ⟨?_, by decide, by decide, ?_, ?_, ?_⟩
  · match x with
    | none => constructor <;> decide
    | some n =>
      by_cases h0 : n = 0
      · subst h0; constructor <;> decide
      · simp only [clampDownloadLimit, h0, if_false]
        constructor
        · exact le_max_left 1 _
        · exact max_le (by norm_num) (min_le_left 30 n)
  · intro n hn
    have h0 : ¬ n = 0 := by omega
    simp only [clampDownloadLimit, h0, if_false]
    rw [min_eq_right (by omega : n ≤ 30), max_eq_left (by omega : n ≤ 1)]
  · intro n hn
    have h0 : ¬ n = 0 := by omega
    simp only [clampDownloadLimit, h0, if_false]
    rw [min_eq_left (by omega : (30 : Int) ≤ n), max_eq_right (by omega : (1 : Int) ≤ 30)]
  · intro n h1 h30
    have h0 : ¬ n = 0 := by omega
    simp only [clampDownloadLimit, h0, if_false]
    rw [min_eq_right h30, max_eq_right h1]

/-- Witness for C10 at concrete limits: -3 is raised to 1, 45 is lowered to
30, 7 passes through, 0 falls back to 5 and the result sits in [1, 30]. -/
theorem launch_clamp_range_witness :
    clampDownloadLimit (some (-3)) = 1 ∧
    clampDownloadLimit (some 45) = 30 ∧
    clampDownloadLimit (some 7) = 7 ∧
    (1 ≤ clampDownloadLimit (some 0) ∧ clampDownloadLimit (some 0) ≤ 30) := by
  refine ⟨?_, ?_, ?_, (launch_clamp_range (some 0)).1⟩
  · exact (launch_clamp_range (some 0)).2.2.2.1 (-3) (by decide)
  · exact (launch_clamp_range (some 0)).2.2.2.2.1 45 (by decide)
  · exact (launch_clamp_range (some 0)).2.2.2.2.2 7 (by decide) (by decide)

/-- C10 counterexample to "below 1 is raised to 1": the caller value 0 is
below 1, yet `0 || 5` evaluates to the default 5 (0 is falsy in JS), so the
launcher passes 5 — not 1 — to the downloader. -/
theorem launch_clamp_zero_counterexample :
    clampDownloadLimit (some 0) = 5 ∧ (5 : Int) ≠ 1 := by
  constructor <;> decide

/-- C1 (amended): when the descriptor list splits into whole successful
slices `A` followed by `B` whose first slice contains a failing item, the
call settles with a failure carrying that item's error; every descriptor of
`A` and of the first slice of `B` was admitted and driven to a terminal
state, the successes among them are written to disk, and the descriptors
after the failing slice are never admitted: a single failure halts admission
of the remaining queued descriptors at the end of its own slice. -/
theorem downloadFileMultiple_failure_batch_isolation (l : Nat) (A B : List DLFile)
    (hlim : l + 1 ≤ (A ++ B).length)
    (hdvd : (l + 1) ∣ A.length)
    (hok : ∀ f ∈ A, dlFails f = false)
    (bad : DLFile)
    (hfind : (B.take (l + 1)).find? dlFails = some bad) :
    downloadFileMultipleModel (A ++ B) (l + 1) =
      some ⟨.failure (fileErrorD bad), A ++ B.take (l + 1),
        A ++ ((B.take (l + 1)).filter fun g => !dlFails g)⟩ := by
  have hrun := runPos_fail l A.length A B (le_refl _) hdvd hok bad hfind
  have hn : ¬ ((A ++ B).length < l + 1) := not_lt_of_ge hlim
  simp only [downloadFileMultipleModel]
  rw [if_neg hn]
  simpa using hrun

/-- Witness for C1: three descriptors, limit 1; the first succeeds, the
second answers 404, so the second slice rejects and the third descriptor is
never admitted. -/
theorem downloadFileMultiple_failure_batch_isolation_witness :
    downloadFileMultipleModel ([exOkA] ++ [ex404, exOkB]) (0 + 1) =
      some ⟨.failure (fileErrorD ex404), [exOkA] ++ [ex404, exOkB].take (0 + 1),
        [exOkA] ++ (([ex404, exOkB].take (0 + 1)).filter fun g => !dlFails g)⟩ :=
  downloadFileMultiple_failure_batch_isolation 0 [exOkA] [ex404, exOkB]
    (by decide) (by decide) (by decide) ex404 (by decide)

/-- C1 counterexample to partial-failure isolation as claimed: with two
descriptors and limit 1 where the first answers 404, the other descriptor is
never admitted and nothing is written — the outcome the claim demands (the
remaining descriptor driven to completion and written) does not occur. -/
theorem downloadFileMultiple_failure_counterexample :
    downloadFileMultipleModel [ex404, exOkB] 1 =
      some ⟨.failure (.raw "HTTP 404: Not Found"), [ex404], []⟩ ∧
    downloadFileMultipleModel [ex404, exOkB] 1 ≠
      some ⟨.failure (.raw "HTTP 404: Not Found"), [ex404, exOkB], [exOkB]⟩ := by
  have h : downloadFileMultipleModel [ex404, exOkB] 1 =
      some ⟨.failure (.raw "HTTP 404: Not Found"), [ex404], []⟩ := by
    simp [downloadFileMultipleModel, runPos, ex404, exOkB, dlFails, fileErrorD]
    rfl
  refine ⟨h, ?_⟩
  rw [h]
  simp [ex404, exOkB]

/-- C2 (amended): the concurrency limit is clamped from above only:
requesting more than the queue length behaves exactly as requesting the
queue length, but there is no lower clamp — a requested limit of 0 on a
non-empty list makes the admission loop advance by 0 forever, so the call
never settles (for every amount of fuel the loop is still running), unlike a
requested limit of 1. -/
theorem concurrency_clamp_upper_only :
    (∀ (files : List DLFile) (limit : Nat), files.length < limit →
      downloadFileMultipleModel files limit =
        downloadFileMultipleModel files files.length) ∧
    (∀ (f : DLFile) (fs : List DLFile), downloadFileMultipleModel (f :: fs) 0 = none) ∧
    (∀ (fuel : Nat) (f : DLFile) (fs : List DLFile), runFuel fuel 0 (f :: fs) = none) ∧
    (∀ (l fuel : Nat) (files : List DLFile), files.length ≤ fuel →
      runFuel fuel (l + 1) files = some (runPos files l)) := by
  refine ⟨?_, ?_, ?_, ?_⟩
  · intro files limit h
    simp only [downloadFileMultipleModel]
    rw [if_pos h, if_neg (lt_irrefl files.length)]
  · intro f fs
    simp [downloadFileMultipleModel]
  · exact runFuel_limit_zero
  · exact runFuel_eq_runPos

/-- Witness for C2: with one descriptor, limit 2 behaves as limit 1; limit 0
never settles (shown at 37 loop iterations of fuel and at the model level),
while limit 1 settles after one slice. -/
theorem concurrency_clamp_upper_only_witness :
    downloadFileMultipleModel [exOkA] 2 = downloadFileMultipleModel [exOkA] 1 ∧
    downloadFileMultipleModel [exOkA] 0 = none ∧
    runFuel 37 0 [exOkA] = none ∧
    runFuel 1 1 [exOkA] = some (runPos [exOkA] 0) := by
  refine ⟨?_, concurrency_clamp_upper_only.2.1 exOkA [],
    concurrency_clamp_upper_only.2.2.1 37 exOkA [],
    concurrency_clamp_upper_only.2.2.2 0 1 [exOkA] (by decide)⟩
  have h := concurrency_clamp_upper_only.1 [exOkA] 2 (by decide)
  simpa using h

/-- C2 counterexample: requesting limit 0 does not behave as limit 1 — with
one successful descriptor, limit 1 settles successfully having written the
file, while limit 0 never settles at all. -/
theorem concurrency_clamp_zero_counterexample :
    downloadFileMultipleModel [exOkA] 0 = none ∧
    downloadFileMultipleModel [exOkA] 1 = some ⟨.success, [exOkA], [exOkA]⟩ ∧
    downloadFileMultipleModel [exOkA] 0 ≠ downloadFileMultipleModel [exOkA] 1 := by
  have h1 : downloadFileMultipleModel [exOkA] 0 = none := by decide
  have h2 : downloadFileMultipleModel [exOkA] 1 =
      some ⟨.success, [exOkA], [exOkA]⟩ := by
    simp [downloadFileMultipleModel, runPos, exOkA, dlFails]
  refine ⟨h1, h2, ?_⟩
  rw [h1, h2]
  simp

/-- C3 (amended): downloadFileMultiple has no cancellation parameter: the
abort signal the alternative launcher passes as a fifth argument is ignored,
the batch behaves identically whatever the signal state, and in particular a
triggered signal stops nothing — every descriptor of an all-successful list
is still admitted and written, and the batch settles successfully rather
than with any cancellation failure. -/
theorem cancellation_signal_ignored :
    (∀ (files : List DLFile) (limit : Nat) (sig : Bool),
      downloadFileMultipleWithSignal files limit sig =
        downloadFileMultipleModel files limit) ∧
    (∀ (l : Nat) (files : List DLFile), (∀ f ∈ files, dlFails f = false) →
      downloadFileMultipleWithSignal files (l + 1) true =
        some ⟨.success, files, files⟩) := by
  constructor
  · intro files limit sig
    rfl
  · intro l files hok
    show downloadFileMultipleModel files (l + 1) = _
    simp only [downloadFileMultipleModel]
    by_cases h : files.length < l + 1
    · rw [if_pos h]
      match hf : files with
      | [] => rfl
      | f :: fs =>
        have := runPos_allOk fs.length (f :: fs).length (f :: fs) (le_refl _) hok
        simpa using this
    · rw [if_neg h]
      have := runPos_allOk l files.length files (le_refl _) hok
      simpa using this

/-- Witness for C3: a triggered signal next to a single successful
descriptor changes nothing — the descriptor is admitted, written, and the
batch settles successfully. -/
theorem cancellation_signal_ignored_witness :
    downloadFileMultipleWithSignal [exOkA] 2 true =
      downloadFileMultipleModel [exOkA] 2 ∧
    downloadFileMultipleWithSignal [exOkA] (0 + 1) true =
      some ⟨.success, [exOkA], [exOkA]⟩ :=
  ⟨cancellation_signal_ignored.1 [exOkA] 2 true,
    cancellation_signal_ignored.2 0 [exOkA] (by decide)⟩

/-- C3 counterexample: with the signal already triggered, the single queued
descriptor is nevertheless admitted and fully written, and the batch settles
with success — not with a cancellation failure, and admission is not
stopped. -/
theorem cancellation_signal_counterexample :
    downloadFileMultipleWithSignal [exOkA] 1 true =
      some ⟨.success, [exOkA], [exOkA]⟩ ∧
    ([exOkA] : List DLFile) ≠ [] := by
  constructor
  · show downloadFileMultipleModel [exOkA] 1 = _
    simp [downloadFileMultipleModel, runPos, exOkA, dlFails]
  · simp

/-- C5 (amended): admission is slice-synchronized, not slot-refilling: all
transfers of the leading slice of `limit = l + 1` descriptors are admitted
at the same instant `t`, and every transfer after that slice is admitted no
earlier than `t` plus the duration of EVERY transfer of the leading slice —
the next queued descriptor waits for the whole `Promise.all` of the current
slice, i.e. for transfers other than the one whose slot it could have
taken. -/
theorem admission_batch_synchronized (l t d : Nat) (rest0 : List Nat) :
    ((batchStarts (d :: rest0) l t).take (l + 1) =
      (d :: rest0.take l).map fun _ => t) ∧
    (∀ s ∈ (batchStarts (d :: rest0) l t).drop (l + 1),
      ∀ x ∈ d :: rest0.take l, t + x ≤ s) := by
  have hlen : ((d :: rest0.take l).map fun _ => t).length ≤ l + 1 := by
    simp only [List.length_map, List.length_cons, List.length_take]
    omega
  constructor
  · rw [batchStarts_cons, List.take_append_eq_append_take,
      List.take_of_length_le hlen]
    by_cases h : rest0.length ≤ l
    · rw [List.drop_of_length_le h, batchStarts_nil]
      simp
    · have : l + 1 - ((d :: rest0.take l).map fun _ => t).length = 0 := by
        simp only [List.length_map, List.length_cons, List.length_take]
        omega
      rw [this]
      simp
  · intro s hs x hx
    rw [batchStarts_cons, List.drop_append_eq_append_drop,
      List.drop_of_length_le hlen] at hs
    simp only [List.nil_append] at hs
    have hs' : s ∈ batchStarts (rest0.drop l) l (t + listMax (d :: rest0.take l)) :=
      List.mem_of_mem_drop hs
    have hmono := batchStarts_le l (rest0.drop l).length (rest0.drop l)
      (le_refl _) _ s hs'
    have hx' : x ≤ listMax (d :: rest0.take l) := le_listMax x _ hx
    omega

/-- Witness for C5 with durations [10, 1, 1] and limit 2: the two transfers
of the first slice start at instant 0, and the third transfer starts no
earlier than 0 + 10 — it waits for the slow first transfer even though the
second slot freed at instant 1. -/
theorem admission_batch_synchronized_witness :
    (batchStarts [10, 1, 1] 1 0).take 2 = [0, 0] ∧ (0 : Nat) + 10 ≤ 10 := by
  constructor
  · have h := (admission_batch_synchronized 1 0 10 [1, 1]).1
    simpa using h
  · refine (admission_batch_synchronized 1 0 10 [1, 1]).2 10 ?_ 10 (by decide)
    simp [batchStarts_cons, batchStarts_nil, listMax]

/-- C5 counterexample to immediate slot refill: with durations [10, 1, 1]
and limit 2, the code admits the third transfer at instant 10 (when the
whole first slice has settled), while the admission policy claimed by the
spec — refill the freed slot immediately — would admit it at instant 1. -/
theorem admission_slot_refill_counterexample :
    batchStarts [10, 1, 1] 1 0 = [0, 0, 10] ∧
    slotFifoStarts [10, 1, 1] (List.replicate 2 0) = [0, 0, 1] ∧
    batchStarts [10, 1, 1] 1 0 ≠ slotFifoStarts [10, 1, 1] (List.replicate 2 0) := by
  have h1 : batchStarts [10, 1, 1] 1 0 = [0, 0, 10] := by
    simp [batchStarts_cons, batchStarts_nil, listMax]
  have h2 : slotFifoStarts [10, 1, 1] (List.replicate 2 0) = [0, 0, 1] := by decide
  refine ⟨h1, h2, ?_⟩
  rw [h1, h2]
  simp
